import Mathlib

/-!
Shallow embedding of the guest-access / barrier subsystem of the
local_hood backend (src/services/barrier_service.rs, src/api/security.rs,
src/models/security.rs, src/error.rs).

Timestamps are integers (minutes); the database is an explicit record of
lists; SQL conditional updates become guarded list maps; the SMS gateway
is an oracle telling whether a given dispatch would succeed, and every
operation returns the list of dispatch attempts it made.
-/

deriving instance DecidableEq for Except

namespace LocalHood

/-- `GuestAccessStatus` from src/models/security.rs. -/
inductive GuestAccessStatus
  | pending
  | active
  | expired
  | completed
  | cancelled
deriving DecidableEq

/-- `BarrierAction` from src/models/security.rs. -/
inductive BarrierAction
  | entry
  | exit
deriving DecidableEq

/-- `GuestAccess` row (src/models/security.rs). Uuids become `Nat` ids,
`DateTime<Utc>` becomes `Int` (minutes). -/
structure GuestAccess where
  id : Nat
  complexId : Nat
  createdBy : Nat
  guestName : Option String
  guestPhone : Option String
  vehicleNumber : Option String
  accessCode : String
  qrCodeUrl : Option String
  durationMinutes : Int
  expiresAt : Int
  enteredAt : Option Int
  exitedAt : Option Int
  status : GuestAccessStatus
  ownerNotified : Bool
  chairmanNotified : Bool
  overstayNotified : Bool
  createdAt : Int
deriving DecidableEq

/-- A `barrier_access_logs` row, as inserted by the barrier service. -/
structure BarrierLogRow where
  complexId : Nat
  barrierId : Option Nat
  userId : Option Nat
  guestAccessId : Option Nat
  action : BarrierAction
  vehicleNumber : Option String
  createdAt : Int
deriving DecidableEq

/-- The fragment of a `users` row read by `get_owner_phone`. -/
structure UserRow where
  id : Nat
  phone : String
deriving DecidableEq

/-- The persistent store: `guest_access`, `barrier_access_logs`, `users`. -/
structure Db where
  guestAccess : List GuestAccess
  barrierLogs : List BarrierLogRow
  users : List UserRow
deriving DecidableEq

/-- `AppError` variants from src/error.rs relevant to this subsystem. -/
inductive AppError
  | unauthorized
  | forbidden
  | notFound (msg : String)
  | badRequest (msg : String)
  | conflict (msg : String)
  | validation (msg : String)
  | database (msg : String)
  | internal (msg : String)
  | sms (msg : String)
deriving DecidableEq

/-- Which SMS template was dispatched (src/services/sms_service.rs). -/
inductive SmsKind
  | guestEntry
  | overstay
deriving DecidableEq

/-- One attempted SMS dispatch; `delivered` records the gateway outcome. -/
structure SmsAttempt where
  phone : String
  kind : SmsKind
  guestAccessId : Nat
  delivered : Bool
deriving DecidableEq

/-- `get_owner_phone`: `SELECT phone FROM users WHERE id = $1`. -/
def getOwnerPhone (users : List UserRow) (userId : Nat) : Option String :=
  (users.find? (fun u => u.id == userId)).map (fun u => u.phone)

/-- `UPDATE guest_access SET ... WHERE id = $1`: apply `f` to every row
whose id matches. -/
def updateById (db : Db) (i : Nat) (f : GuestAccess → GuestAccess) : Db :=
  { db with guestAccess := db.guestAccess.map (fun g => if g.id == i then f g else g) }

/-- `SELECT * FROM guest_access WHERE id = $1` (first match). -/
def findById (db : Db) (i : Nat) : Option GuestAccess :=
  db.guestAccess.find? (fun g => g.id == i)

/-- The `SELECT` of `process_entry`:
`WHERE access_code = $1 AND status = 'pending' AND expires_at > NOW()`. -/
def entryLookup (db : Db) (code : String) (now : Int) : Option GuestAccess :=
  db.guestAccess.find? (fun g =>
    g.accessCode == code && g.status == GuestAccessStatus.pending
      && decide (now < g.expiresAt))

/-- The row mutation of the entry `UPDATE`:
`SET status = 'active', entered_at = NOW()`. -/
def setEntered (now : Int) (g : GuestAccess) : GuestAccess :=
  { g with status := GuestAccessStatus.active, enteredAt := some now }

/-- The status-changing write of `process_entry`:
`UPDATE guest_access SET status = 'active', entered_at = NOW()
WHERE id = $1 RETURNING *` with `fetch_one`. Note the `WHERE` clause is
keyed by id alone. -/
def entryUpdate (db : Db) (i : Nat) (now : Int) : Db × Option GuestAccess :=
  (updateById db i (setEntered now), (findById db i).map (setEntered now))

/-- The `barrier_access_logs` row inserted by `process_entry`: the
vehicle number prefers the barrier-observed value over the one recorded
at creation. -/
def entryLogRow (g : GuestAccess) (vehicle : Option String)
    (barrierId : Option Nat) (now : Int) : BarrierLogRow :=
  { complexId := g.complexId, barrierId := barrierId, userId := none,
    guestAccessId := some g.id, action := BarrierAction.entry,
    vehicleNumber := vehicle.or g.vehicleNumber, createdAt := now }

/-- `process_entry` (src/services/barrier_service.rs). `smsOk` is the
gateway outcome for the (at most one) entry notification. Returns the
new store, the call result, and the dispatch attempts made. -/
def process_entry (db : Db) (code : String) (vehicle : Option String)
    (barrierId : Option Nat) (now : Int) (smsOk : Bool) :
    Db × Except AppError GuestAccess × List SmsAttempt :=
  match entryLookup db code now with
  | none => (db, Except.error (AppError.notFound "Код доступа не найден или истёк"), [])
  | some g =>
    match entryUpdate db g.id now with
    | (db1, none) => (db1, Except.error (AppError.database "RowNotFound"), [])
    | (db1, some updated) =>
      let db2 : Db := { db1 with barrierLogs := db1.barrierLogs ++ [entryLogRow g vehicle barrierId now] }
      match getOwnerPhone db2.users g.createdBy with
      | some phone =>
        let attempt : SmsAttempt :=
          { phone := phone, kind := SmsKind.guestEntry,
            guestAccessId := updated.id, delivered := smsOk }
        let db3 := updateById db2 updated.id (fun r => { r with ownerNotified := true })
        (db3, Except.ok updated, [attempt])
      | none => (db2, Except.ok updated, [])

/-- The `SELECT` of `process_exit`:
`WHERE access_code = $1 AND status = 'active'`. -/
def exitLookup (db : Db) (code : String) : Option GuestAccess :=
  db.guestAccess.find? (fun g =>
    g.accessCode == code && g.status == GuestAccessStatus.active)

/-- The row mutation of the exit `UPDATE`:
`SET status = 'completed', exited_at = NOW()`. -/
def setExited (now : Int) (g : GuestAccess) : GuestAccess :=
  { g with status := GuestAccessStatus.completed, exitedAt := some now }

/-- The `barrier_access_logs` row inserted by `process_exit`: the vehicle
number is the one recorded at creation. -/
def exitLogRow (g : GuestAccess) (barrierId : Option Nat) (now : Int) : BarrierLogRow :=
  { complexId := g.complexId, barrierId := barrierId, userId := none,
    guestAccessId := some g.id, action := BarrierAction.exit,
    vehicleNumber := g.vehicleNumber, createdAt := now }

/-- `process_exit` (src/services/barrier_service.rs). -/
def process_exit (db : Db) (code : String) (barrierId : Option Nat) (now : Int) :
    Db × Except AppError GuestAccess × List SmsAttempt :=
  match exitLookup db code with
  | none => (db, Except.error (AppError.notFound "Активный гостевой доступ не найден"), [])
  | some g =>
    match (findById db g.id).map (setExited now) with
    | none => (updateById db g.id (setExited now), Except.error (AppError.database "RowNotFound"), [])
    | some updated =>
      let db1 := updateById db g.id (setExited now)
      ({ db1 with barrierLogs := db1.barrierLogs ++ [exitLogRow g barrierId now] }, Except.ok updated, [])

/-- The `WHERE` clause of `cancel_access`:
`id = $1 AND created_by = $2 AND status = 'pending'`. -/
def cancelGuard (accessId userId : Nat) (g : GuestAccess) : Bool :=
  g.id == accessId && g.createdBy == userId && g.status == GuestAccessStatus.pending

/-- `cancel_access`: a guarded `UPDATE ... SET status = 'cancelled'`,
then `NotFound` when `rows_affected() == 0`. -/
def cancel_access (db : Db) (accessId userId : Nat) :
    Db × Except AppError Unit :=
  let affected := db.guestAccess.countP (cancelGuard accessId userId)
  let db1 : Db := { db with guestAccess := db.guestAccess.map (fun g =>
    if cancelGuard accessId userId g then { g with status := GuestAccessStatus.cancelled } else g) }
  if affected == 0 then
    (db1, Except.error (AppError.notFound "Гостевой доступ не найден"))
  else
    (db1, Except.ok ())

/-- The overstay `SELECT` clause: `status = 'active' AND
overstay_notified = false AND entered_at + duration < NOW()`
(a NULL `entered_at` never satisfies the comparison). -/
def overstayGuard (now : Int) (g : GuestAccess) : Bool :=
  g.status == GuestAccessStatus.active && g.overstayNotified == false
    && (match g.enteredAt with
        | some t => decide (t + g.durationMinutes < now)
        | none => false)

/-- One iteration of the `check_overstays` loop: resolve the creator's
phone; when it resolves, dispatch the overstay SMS (outcome `smsOk g.id`,
only logged) and then set `overstay_notified = true` unconditionally;
when it does not resolve, do nothing. -/
def overstayStep (smsOk : Nat → Bool) (acc : Db × List SmsAttempt)
    (g : GuestAccess) : Db × List SmsAttempt :=
  match getOwnerPhone acc.1.users g.createdBy with
  | some phone =>
    (updateById acc.1 g.id (fun r => { r with overstayNotified := true }),
     acc.2 ++ [{ phone := phone, kind := SmsKind.overstay,
                 guestAccessId := g.id, delivered := smsOk g.id }])
  | none => acc

/-- `check_overstays` (src/services/barrier_service.rs): select the
overstaying rows, then run the loop body on each. -/
def check_overstays (db : Db) (now : Int) (smsOk : Nat → Bool) :
    Db × List SmsAttempt :=
  (db.guestAccess.filter (overstayGuard now)).foldl (overstayStep smsOk) (db, [])

/-- The `WHERE` clause of `expire_old_access`:
`status = 'pending' AND expires_at < NOW()` (strict). -/
def expireGuard (now : Int) (g : GuestAccess) : Bool :=
  g.status == GuestAccessStatus.pending && decide (g.expiresAt < now)

/-- `expire_old_access`: `UPDATE guest_access SET status = 'expired'
WHERE status = 'pending' AND expires_at < NOW()`, returning
`rows_affected`; no SMS call occurs. -/
def expire_old_access (db : Db) (now : Int) : Db × Nat × List SmsAttempt :=
  ({ db with guestAccess := db.guestAccess.map (fun g =>
      if expireGuard now g then { g with status := GuestAccessStatus.expired } else g) },
   db.guestAccess.countP (expireGuard now), [])

/-- `BarrierService::create_guest_access`: insert a fresh Pending row with
`expires_at = now + duration`. The generated access code and the fresh row
id are parameters (the generator is random in the source); `created_at`
is the database default `NOW()`. No SMS call occurs. -/
def create_guest_access (db : Db) (complexId userId : Nat)
    (guestName guestPhone vehicleNumber : Option String)
    (durationMinutes : Int) (accessCode : String) (newId : Nat) (now : Int) :
    Db × GuestAccess :=
  let g : GuestAccess :=
    { id := newId, complexId := complexId, createdBy := userId,
      guestName := guestName, guestPhone := guestPhone,
      vehicleNumber := vehicleNumber, accessCode := accessCode,
      qrCodeUrl := none, durationMinutes := durationMinutes,
      expiresAt := now + durationMinutes, enteredAt := none, exitedAt := none,
      status := GuestAccessStatus.pending, ownerNotified := false,
      chairmanNotified := false, overstayNotified := false, createdAt := now }
  ({ db with guestAccess := db.guestAccess ++ [g] }, g)

/-- The `create_guest_access` route handler (src/api/security.rs), after
the issuer's complex has been resolved: the requested duration defaults
to 30 and is clamped with `.min(240)`, the service insert runs, and when
QR rendering succeeds the row's `qr_code_url` is set. `qr` is the
rendering outcome (`.ok()` in the source). -/
def create_guest_access_handler (db : Db) (userId complexId : Nat)
    (guestName guestPhone vehicleNumber : Option String)
    (payloadDuration : Option Int) (accessCode : String) (newId : Nat)
    (qr : Option String) (now : Int) :
    Db × Except AppError GuestAccess × List SmsAttempt :=
  let duration := min (payloadDuration.getD 30) 240
  let created := create_guest_access db complexId userId guestName guestPhone
    vehicleNumber duration accessCode newId now
  match qr with
  | some q =>
    (updateById created.1 created.2.id (fun r => { r with qrCodeUrl := some q }),
     Except.ok created.2, [])
  | none => (created.1, Except.ok created.2, [])

/-- The racy interleaving of two concurrent `process_entry` calls on the
same code in which both perform their guarded `SELECT` before either
performs its id-keyed `UPDATE`: read A, read B, write A, write B.
Returns the row each call's status-changing write produced (`none` means
that call failed with NotFound / RowNotFound before transitioning). -/
def racyDoubleEntry (db : Db) (code : String) (now : Int) :
    Option GuestAccess × Option GuestAccess :=
  match entryLookup db code now, entryLookup db code now with
  | some ga, some gb =>
    let stepA := entryUpdate db ga.id now
    let stepB := entryUpdate stepA.1 gb.id now
    (stepA.2, stepB.2)
  | some ga, none =>
    ((entryUpdate db ga.id now).2, none)
  | none, some gb =>
    (none, (entryUpdate db gb.id now).2)
  | none, none => (none, none)

/-! Concrete stores used by counterexamples and witnesses. -/

/-- A resident with a resolvable phone number. -/
def user7 : UserRow := { id := 7, phone := "+77001234567" }

/-- A Pending record (code 123456, window ends at time 100). -/
def pendingRec : GuestAccess :=
  { id := 1, complexId := 10, createdBy := 7, guestName := some "Ivan",
    guestPhone := none, vehicleNumber := some "A123BC", accessCode := "123456",
    qrCodeUrl := none, durationMinutes := 60, expiresAt := 100,
    enteredAt := none, exitedAt := none, status := GuestAccessStatus.pending,
    ownerNotified := false, chairmanNotified := false, overstayNotified := false,
    createdAt := 40 }

/-- Store holding just `pendingRec` and its creator. -/
def pendingDb : Db :=
  { guestAccess := [pendingRec], barrierLogs := [], users := [user7] }

/-- An Active record that entered at 10 with a 30-minute window, so it is
overstaying at any time past 40. -/
def overstayRec : GuestAccess :=
  { id := 2, complexId := 10, createdBy := 7, guestName := some "Ivan",
    guestPhone := none, vehicleNumber := none, accessCode := "222222",
    qrCodeUrl := none, durationMinutes := 30, expiresAt := 70,
    enteredAt := some 10, exitedAt := none, status := GuestAccessStatus.active,
    ownerNotified := true, chairmanNotified := false, overstayNotified := false,
    createdAt := 5 }

/-- Store holding just `overstayRec` and its creator. -/
def overstayDb : Db :=
  { guestAccess := [overstayRec], barrierLogs := [], users := [user7] }

/-- An empty store. -/
def emptyDb : Db := { guestAccess := [], barrierLogs := [], users := [] }

/-- An overstaying Active record whose creator (99) has no users row, so
the phone lookup cannot resolve. -/
def orphanRec : GuestAccess :=
  { id := 3, complexId := 10, createdBy := 99, guestName := none,
    guestPhone := none, vehicleNumber := none, accessCode := "333333",
    qrCodeUrl := none, durationMinutes := 30, expiresAt := 70,
    enteredAt := some 10, exitedAt := none, status := GuestAccessStatus.active,
    ownerNotified := false, chairmanNotified := false, overstayNotified := false,
    createdAt := 5 }

/-- Store holding just `orphanRec`; its creator is not in `users`. -/
def orphanDb : Db :=
  { guestAccess := [orphanRec], barrierLogs := [], users := [user7] }

/-! Counterexample theorems. -/

/-- C1 counterexample: the status-changing write of `process_entry` is
keyed by id alone and does not re-validate `status = 'pending'`, so in the
read-read-write-write interleaving of two calls on code 123456 both calls
perform a Pending-to-Active transition and succeed; the claim that exactly
one succeeds and the other gets NotFound is false. -/
theorem racy_double_entry_both_succeed :
    (racyDoubleEntry pendingDb "123456" 50).1.map (fun g => g.status)
        = some GuestAccessStatus.active
      ∧ (racyDoubleEntry pendingDb "123456" 50).2.map (fun g => g.status)
        = some GuestAccessStatus.active := by
  decide

/-- C2 counterexample: requester 8 is not the creator (7) of the Pending
record `pendingRec`, yet `cancel_access` fails with NotFound, not with
Forbidden. -/
theorem cancel_noncreator_notFound :
    pendingRec.status = GuestAccessStatus.pending
      ∧ pendingRec.createdBy ≠ 8
      ∧ (cancel_access pendingDb 1 8).2
          = Except.error (AppError.notFound "Гостевой доступ не найден") := by
  decide

/-- C3 counterexample: sweeping `overstayDb` at time 100 with a gateway
that fails every dispatch still sets `overstay_notified = true` on the
overstaying record, so the failed dispatch is never retried; the claim
that the flag is set only if dispatch succeeds is false. -/
theorem overstay_flag_set_despite_failed_dispatch :
    (check_overstays overstayDb 100 (fun _ => false)).2
        = [{ phone := "+77001234567", kind := SmsKind.overstay,
             guestAccessId := 2, delivered := false }]
      ∧ (check_overstays overstayDb 100 (fun _ => false)).1.guestAccess.map
          (fun g => g.overstayNotified) = [true] := by
  decide

/-- C4 counterexample: a `process_entry` call whose entry notification
dispatch fails still sets `owner_notified = true` on the record; the claim
that the flag remains false after a failed dispatch is false. -/
theorem entry_flag_set_despite_failed_dispatch :
    (process_entry pendingDb "123456" none none 50 false).2.2
        = [{ phone := "+77001234567", kind := SmsKind.guestEntry,
             guestAccessId := 1, delivered := false }]
      ∧ (process_entry pendingDb "123456" none none 50 false).1.guestAccess.map
          (fun g => g.ownerNotified) = [true] := by
  decide

/-- C5 counterexample: a create request with duration 500 (above the 240
ceiling) does not fail with a Validation error; the handler clamps the
duration to 240 and succeeds. -/
theorem create_excess_duration_clamped_not_rejected :
    ((create_guest_access_handler emptyDb 7 10 none none none (some 500)
        "654321" 3 none 0).2.1.toOption.map (fun g => g.durationMinutes))
        = some 240
      ∧ ((create_guest_access_handler emptyDb 7 10 none none none (some 500)
          "654321" 3 none 0).2.1.toOption.map (fun g => g.status))
        = some GuestAccessStatus.pending := by
  decide

/-- C8 counterexample: the expiry sweep uses the strict comparison
`expires_at < NOW()`, so a Pending record whose `expires_at` equals the
sweep time is not expired; the claim that it is included is false. -/
theorem expire_boundary_record_not_swept :
    pendingRec.expiresAt = 100
      ∧ pendingRec.status = GuestAccessStatus.pending
      ∧ (expire_old_access pendingDb 100).2.1 = 0
      ∧ (expire_old_access pendingDb 100).1.guestAccess.map (fun g => g.status)
        = [GuestAccessStatus.pending] := by
  decide

/-! General lemmas about the lookups. -/

theorem entryLookupPred_iff (code : String) (now : Int) (g : GuestAccess) :
    (g.accessCode == code && g.status == GuestAccessStatus.pending
        && decide (now < g.expiresAt)) = true
      ↔ g.accessCode = code ∧ g.status = GuestAccessStatus.pending ∧ now < g.expiresAt := by
  simp [Bool.and_eq_true, and_assoc]

theorem entryLookup_eq_none_iff (db : Db) (code : String) (now : Int) :
    entryLookup db code now = none
      ↔ ∀ g ∈ db.guestAccess,
          ¬(g.accessCode = code ∧ g.status = GuestAccessStatus.pending ∧ now < g.expiresAt) := by
  unfold entryLookup
  rw [List.find?_eq_none]
  constructor
  · intro h g hg hp
    exact h g hg ((entryLookupPred_iff code now g).mpr hp)
  · intro h g hg hp
    exact h g hg ((entryLookupPred_iff code now g).mp hp)

theorem entryLookup_some_props {db : Db} {code : String} {now : Int} {g : GuestAccess}
    (h : entryLookup db code now = some g) :
    g ∈ db.guestAccess ∧ g.accessCode = code ∧ g.status = GuestAccessStatus.pending
      ∧ now < g.expiresAt := by
  have h1 : db.guestAccess.find? (fun x =>
      x.accessCode == code && x.status == GuestAccessStatus.pending
        && decide (now < x.expiresAt)) = some g := h
  have h2 := List.find?_some h1
  exact ⟨List.mem_of_find?_eq_some h1, (entryLookupPred_iff code now g).mp h2⟩

theorem findById_of_mem {db : Db} {g : GuestAccess} (h : g ∈ db.guestAccess) :
    ∃ r, findById db g.id = some r ∧ r ∈ db.guestAccess ∧ r.id = g.id := by
  have hs : (db.guestAccess.find? (fun x => x.id == g.id)).isSome := by
    rw [List.find?_isSome]
    exact ⟨g, h, by simp⟩
  cases hr : db.guestAccess.find? (fun x => x.id == g.id) with
  | none => rw [hr] at hs; simp at hs
  | some r =>
    refine ⟨r, hr, List.mem_of_find?_eq_some hr, ?_⟩
    simpa using List.find?_some hr

/-- C6: `process_entry` fails with NotFound exactly when no record has the
presented code with status Pending and `expires_at > now` (so an Active,
terminal, or expired code is rejected the same way, reaper or not), and a
rejection returns the store unchanged and dispatches nothing. -/
theorem process_entry_notFound_iff (db : Db) (code : String) (vehicle : Option String)
    (barrierId : Option Nat) (now : Int) (smsOk : Bool) :
    ((process_entry db code vehicle barrierId now smsOk).2.1
        = Except.error (AppError.notFound "Код доступа не найден или истёк")
      ↔ ∀ g ∈ db.guestAccess,
          ¬(g.accessCode = code ∧ g.status = GuestAccessStatus.pending ∧ now < g.expiresAt))
    ∧ (∀ e, (process_entry db code vehicle barrierId now smsOk).2.1 = Except.error e →
        (process_entry db code vehicle barrierId now smsOk).1 = db
          ∧ (process_entry db code vehicle barrierId now smsOk).2.2 = []) := by
  cases h : entryLookup db code now with
  | none =>
    have hnone := (entryLookup_eq_none_iff db code now).mp h
    refine ⟨?_, ?_⟩
    · simp only [process_entry, h]
      exact iff_of_true trivial hnone
    · intro e _
      simp [process_entry, h]
  | some g =>
    obtain ⟨hmem, hcode, hstat, hexp⟩ := entryLookup_some_props h
    obtain ⟨r, hr, hrmem, hrid⟩ := findById_of_mem hmem
    have hok : ∃ u, (process_entry db code vehicle barrierId now smsOk).2.1 = Except.ok u := by
      cases hp : getOwnerPhone db.users g.createdBy with
      | some phone =>
        exact ⟨setEntered now r, by simp [process_entry, h, entryUpdate, hr, hp, updateById]⟩
      | none =>
        exact ⟨setEntered now r, by simp [process_entry, h, entryUpdate, hr, hp, updateById]⟩
    obtain ⟨u, hu⟩ := hok
    refine ⟨?_, ?_⟩
    · rw [hu]
      constructor
      · intro hfalse
        exact Except.noConfusion hfalse
      · intro hall
        exact absurd ⟨hcode, hstat, hexp⟩ (hall g hmem)
    · intro e he
      rw [hu] at he
      exact Except.noConfusion he

/-- C6 witness: a rejected code (999999 is not in the store) leaves the
store unchanged and dispatches nothing. -/
theorem process_entry_notFound_iff_witness :
    (process_entry pendingDb "999999" none none 50 true).1 = pendingDb
      ∧ (process_entry pendingDb "999999" none none 50 true).2.2 = [] :=
  (process_entry_notFound_iff pendingDb "999999" none none 50 true).2
    (AppError.notFound "Код доступа не найден или истёк") (by decide)

theorem process_entry_of_lookup_none {db : Db} {code : String} {now : Int}
    (vehicle : Option String) (barrierId : Option Nat) (smsOk : Bool)
    (h : entryLookup db code now = none) :
    process_entry db code vehicle barrierId now smsOk
      = (db, Except.error (AppError.notFound "Код доступа не найден или истёк"), []) := by
  simp [process_entry, h]

theorem process_entry_ok_cases {db : Db} {code : String} {vehicle : Option String}
    {barrierId : Option Nat} {now : Int} {smsOk : Bool} {u : GuestAccess}
    (h : (process_entry db code vehicle barrierId now smsOk).2.1 = Except.ok u) :
    ∃ g r, entryLookup db code now = some g ∧ findById db g.id = some r
      ∧ u = setEntered now r ∧ r.id = g.id
      ∧ (process_entry db code vehicle barrierId now smsOk).1.barrierLogs
          = db.barrierLogs ++ [entryLogRow g vehicle barrierId now]
      ∧ ((getOwnerPhone db.users g.createdBy = none
            ∧ (process_entry db code vehicle barrierId now smsOk).2.2 = []
            ∧ (process_entry db code vehicle barrierId now smsOk).1.guestAccess
              = db.guestAccess.map (fun x => if x.id == g.id then setEntered now x else x))
        ∨ (∃ phone, getOwnerPhone db.users g.createdBy = some phone
            ∧ (process_entry db code vehicle barrierId now smsOk).2.2
              = [{ phone := phone, kind := SmsKind.guestEntry,
                   guestAccessId := u.id, delivered := smsOk }]
            ∧ (process_entry db code vehicle barrierId now smsOk).1.guestAccess
              = (db.guestAccess.map (fun x => if x.id == g.id then setEntered now x else x)).map
                  (fun x => if x.id == u.id then { x with ownerNotified := true } else x))) := by
  cases hl : entryLookup db code now with
  | none =>
    rw [show (process_entry db code vehicle barrierId now smsOk).2.1
        = Except.error (AppError.notFound "Код доступа не найден или истёк") by
      simp [process_entry, hl]] at h
    exact Except.noConfusion h
  | some g =>
    cases hr : findById db g.id with
    | none =>
      rw [show (process_entry db code vehicle barrierId now smsOk).2.1
          = Except.error (AppError.database "RowNotFound") by
        simp [process_entry, hl, entryUpdate, hr]] at h
      exact Except.noConfusion h
    | some r =>
      have hrid : r.id = g.id := by
        have h1 : db.guestAccess.find? (fun x => x.id == g.id) = some r := hr
        simpa using List.find?_some h1
      have hu : u = setEntered now r := by
        cases hp : getOwnerPhone db.users g.createdBy with
        | some phone =>
          have := h
          rw [show (process_entry db code vehicle barrierId now smsOk).2.1
              = Except.ok (setEntered now r) by
            simp [process_entry, hl, entryUpdate, hr, updateById, hp]] at this
          exact (Except.ok.inj this).symm
        | none =>
          have := h
          rw [show (process_entry db code vehicle barrierId now smsOk).2.1
              = Except.ok (setEntered now r) by
            simp [process_entry, hl, entryUpdate, hr, updateById, hp]] at this
          exact (Except.ok.inj this).symm
      refine ⟨g, r, rfl, hr, hu, hrid, ?_, ?_⟩
      · cases hp : getOwnerPhone db.users g.createdBy with
        | some phone => simp [process_entry, hl, entryUpdate, hr, updateById, hp]
        | none => simp [process_entry, hl, entryUpdate, hr, updateById, hp]
      · cases hp : getOwnerPhone db.users g.createdBy with
        | some phone =>
          refine Or.inr ⟨phone, rfl, ?_, ?_⟩
          · simp [process_entry, hl, entryUpdate, hr, updateById, hp, hu]
          · simp [process_entry, hl, entryUpdate, hr, updateById, hp, hu]
        | none =>
          refine Or.inl ⟨rfl, ?_, ?_⟩
          · simp [process_entry, hl, entryUpdate, hr, updateById, hp]
          · simp [process_entry, hl, entryUpdate, hr, updateById, hp]

/-- C9: a successful `process_entry` transitions the matched record from
Pending to Active, stamps `entered_at = now`, and appends exactly one
Entry audit-log row whose vehicle number prefers the barrier-observed
value over the one recorded at creation. -/
theorem process_entry_success_transition (db : Db) (code : String)
    (vehicle : Option String) (barrierId : Option Nat) (now : Int) (smsOk : Bool)
    (u : GuestAccess)
    (h : (process_entry db code vehicle barrierId now smsOk).2.1 = Except.ok u) :
    u.status = GuestAccessStatus.active ∧ u.enteredAt = some now
      ∧ ∃ g0 ∈ db.guestAccess, g0.accessCode = code
          ∧ g0.status = GuestAccessStatus.pending ∧ now < g0.expiresAt ∧ u.id = g0.id
          ∧ (process_entry db code vehicle barrierId now smsOk).1.barrierLogs
            = db.barrierLogs ++ [entryLogRow g0 vehicle barrierId now] := by
  obtain ⟨g, r, hl, hr, hu, hrid, hlogs, _⟩ := process_entry_ok_cases h
  obtain ⟨hmem, hcode, hstat, hexp⟩ := entryLookup_some_props hl
  refine ⟨by simp [hu, setEntered], by simp [hu, setEntered], g, hmem, hcode, hstat, hexp, ?_, hlogs⟩
  simp [hu, setEntered, hrid]

/-- C9 witness: entering with code 123456 and observed vehicle B777BB at
time 50 yields the Active record and the Entry log row. -/
theorem process_entry_success_transition_witness :
    (process_entry pendingDb "123456" (some "B777BB") (some 5) 50 true).2.1
        = Except.ok (setEntered 50 pendingRec)
      ∧ ((setEntered 50 pendingRec).status = GuestAccessStatus.active
          ∧ (setEntered 50 pendingRec).enteredAt = some 50
          ∧ ∃ g0 ∈ pendingDb.guestAccess, g0.accessCode = "123456"
              ∧ g0.status = GuestAccessStatus.pending ∧ 50 < g0.expiresAt
              ∧ (setEntered 50 pendingRec).id = g0.id
              ∧ (process_entry pendingDb "123456" (some "B777BB") (some 5) 50 true).1.barrierLogs
                = pendingDb.barrierLogs ++ [entryLogRow g0 (some "B777BB") (some 5) 50]) :=
  ⟨by decide, process_entry_success_transition pendingDb "123456" (some "B777BB")
    (some 5) 50 true (setEntered 50 pendingRec) (by decide)⟩

/-- C4 amended: on a successful `process_entry` whose entry notification
dispatch fails, the call still succeeds, the record stays Active (the
transition is not rolled back), and — because the source sets the flag
unconditionally after resolving the phone — `owner_notified` is true
whenever a dispatch was attempted, even though it failed. -/
theorem process_entry_failed_dispatch_keeps_transition (db : Db) (code : String)
    (vehicle : Option String) (barrierId : Option Nat) (now : Int) (u : GuestAccess)
    (h : (process_entry db code vehicle barrierId now false).2.1 = Except.ok u) :
    u.status = GuestAccessStatus.active
      ∧ (∀ a ∈ (process_entry db code vehicle barrierId now false).2.2, a.delivered = false)
      ∧ (∀ a ∈ (process_entry db code vehicle barrierId now false).2.2,
          ∀ x ∈ (process_entry db code vehicle barrierId now false).1.guestAccess,
            x.id = u.id → x.ownerNotified = true ∧ x.status = GuestAccessStatus.active) := by
  obtain ⟨g, r, hl, hr, hu, hrid, hlogs, hor⟩ := process_entry_ok_cases h
  have huid : u.id = g.id := by rw [hu]; simpa [setEntered] using hrid
  refine ⟨by simp [hu, setEntered], ?_, ?_⟩
  · intro a ha
    rcases hor with ⟨hp, hatt, hga⟩ | ⟨phone, hp, hatt, hga⟩
    · rw [hatt] at ha
      exact absurd ha (List.not_mem_nil a)
    · rw [hatt] at ha
      rcases List.mem_singleton.mp ha with rfl
      rfl
  · intro a ha x hx hid
    rcases hor with ⟨hp, hatt, hga⟩ | ⟨phone, hp, hatt, hga⟩
    · rw [hatt] at ha
      exact absurd ha (List.not_mem_nil a)
    · rw [hga] at hx
      obtain ⟨z, hz, hxz⟩ := List.mem_map.mp hx
      obtain ⟨y, hy, hzy⟩ := List.mem_map.mp hz
      by_cases hy1 : y.id = g.id
      · have hz1 : z = setEntered now y := by
          rw [← hzy]
          simp [hy1]
        have hzid : z.id = u.id := by
          rw [hz1, huid]
          simp [setEntered, hy1]
        have hx1 : x = { z with ownerNotified := true } := by
          rw [← hxz]
          simp [hzid]
        rw [hx1, hz1]
        simp [setEntered]
      · have hz1 : z = y := by
          rw [← hzy]
          simp [hy1]
        have hzid : ¬(z.id = u.id) := by
          rw [hz1, huid]
          exact hy1
        have hx1 : x = z := by
          rw [← hxz]
          simp [hzid]
        rw [hx1] at hid
        exact absurd hid hzid

/-- C4 witness: with a failing gateway, the entry call on code 123456
still succeeds and the attempted (failed) dispatch leaves the record
Active with `owner_notified = true`. -/
theorem process_entry_failed_dispatch_keeps_transition_witness :
    (process_entry pendingDb "123456" none none 50 false).2.1
        = Except.ok (setEntered 50 pendingRec)
      ∧ ((setEntered 50 pendingRec).status = GuestAccessStatus.active
          ∧ (∀ a ∈ (process_entry pendingDb "123456" none none 50 false).2.2,
              a.delivered = false)
          ∧ (∀ a ∈ (process_entry pendingDb "123456" none none 50 false).2.2,
              ∀ x ∈ (process_entry pendingDb "123456" none none 50 false).1.guestAccess,
                x.id = (setEntered 50 pendingRec).id →
                  x.ownerNotified = true ∧ x.status = GuestAccessStatus.active)) :=
  ⟨by decide, process_entry_failed_dispatch_keeps_transition pendingDb "123456"
    none none 50 (setEntered 50 pendingRec) (by decide)⟩

/-- C1 amended: the status-changing write of `process_entry` is keyed by
record id alone, so only the initial guarded read protects against reuse:
when two calls with the same code run serialized (the second reads after
the first wrote), the second always fails with NotFound; the racy
read-read-write-write interleaving instead lets both succeed. This
theorem proves the serialized half. -/
theorem process_entry_second_call_notFound (db : Db) (code : String)
    (v1 v2 : Option String) (b1 b2 : Option Nat) (now1 now2 : Int)
    (ok1 ok2 : Bool) (u : GuestAccess)
    (h : (process_entry db code v1 b1 now1 ok1).2.1 = Except.ok u)
    (huniq : ∀ x ∈ db.guestAccess, x.accessCode = code → x.id = u.id) :
    (process_entry (process_entry db code v1 b1 now1 ok1).1 code v2 b2 now2 ok2).2.1
      = Except.error (AppError.notFound "Код доступа не найден или истёк") := by
  obtain ⟨g, r, hl, hr, hu, hrid, hlogs, hor⟩ := process_entry_ok_cases h
  have huid : u.id = g.id := by rw [hu]; simpa [setEntered] using hrid
  have hm1code : ∀ y : GuestAccess,
      (if y.id == g.id then setEntered now1 y else y).accessCode = y.accessCode := by
    intro y
    by_cases hy1 : y.id = g.id <;> simp [hy1, setEntered]
  have hm1id : ∀ y : GuestAccess,
      (if y.id == g.id then setEntered now1 y else y).id = y.id := by
    intro y
    by_cases hy1 : y.id = g.id <;> simp [hy1, setEntered]
  have hm1stat : ∀ y : GuestAccess, y.id = g.id →
      (if y.id == g.id then setEntered now1 y else y).status = GuestAccessStatus.active := by
    intro y hy1
    simp [hy1, setEntered]
  have hm2code : ∀ z : GuestAccess,
      (if z.id == u.id then { z with ownerNotified := true } else z).accessCode
        = z.accessCode := by
    intro z
    by_cases hz1 : z.id = u.id <;> simp [hz1]
  have hm2stat : ∀ z : GuestAccess,
      (if z.id == u.id then { z with ownerNotified := true } else z).status = z.status := by
    intro z
    by_cases hz1 : z.id = u.id <;> simp [hz1]
  have hstat : ∀ x ∈ (process_entry db code v1 b1 now1 ok1).1.guestAccess,
      x.accessCode = code → x.status = GuestAccessStatus.active := by
    intro x hx hcx
    rcases hor with ⟨hp, hatt, hga⟩ | ⟨phone, hp, hatt, hga⟩
    · rw [hga] at hx
      obtain ⟨y, hy, hxy⟩ := List.mem_map.mp hx
      have hyc : y.accessCode = code := by rw [← hxy, hm1code] at hcx; exact hcx
      have hyid : y.id = g.id := by rw [← huid]; exact huniq y hy hyc
      rw [← hxy]
      exact hm1stat y hyid
    · rw [hga] at hx
      obtain ⟨z, hz, hxz⟩ := List.mem_map.mp hx
      obtain ⟨y, hy, hzy⟩ := List.mem_map.mp hz
      have hyc : y.accessCode = code := by
        rw [← hxz, hm2code, ← hzy, hm1code] at hcx
        exact hcx
      have hyid : y.id = g.id := by rw [← huid]; exact huniq y hy hyc
      rw [← hxz, hm2stat, ← hzy]
      exact hm1stat y hyid
  have hlook2 : entryLookup (process_entry db code v1 b1 now1 ok1).1 code now2 = none := by
    rw [entryLookup_eq_none_iff]
    intro x hx hcontr
    obtain ⟨hcx, hsx, _⟩ := hcontr
    rw [hstat x hx hcx] at hsx
    exact GuestAccessStatus.noConfusion hsx
  rw [process_entry_of_lookup_none v2 b2 ok2 hlook2]

/-- C1 witness: after a successful serialized first entry with code
123456 on `pendingDb`, the second call at time 60 fails with NotFound. -/
theorem process_entry_second_call_notFound_witness :
    (process_entry pendingDb "123456" none none 50 true).2.1
        = Except.ok (setEntered 50 pendingRec)
      ∧ (process_entry (process_entry pendingDb "123456" none none 50 true).1
            "123456" none none 60 true).2.1
        = Except.error (AppError.notFound "Код доступа не найден или истёк") :=
  ⟨by decide, process_entry_second_call_notFound pendingDb "123456" none none
    none none 50 60 true true (setEntered 50 pendingRec) (by decide) (by decide)⟩

theorem cancelGuard_iff (accessId userId : Nat) (g : GuestAccess) :
    cancelGuard accessId userId g = true
      ↔ g.id = accessId ∧ g.createdBy = userId ∧ g.status = GuestAccessStatus.pending := by
  simp [cancelGuard, and_assoc]

/-- C2 amended: `cancel_access` fails with NotFound exactly when no record
matches (id, requester as creator, Pending) — including an existing
Pending record whose creator is not the requester, which the source also
reports as NotFound, never Forbidden; a failed cancel leaves the store
unchanged, and a cancel rewrites exactly the matching Pending rows of
that creator to Cancelled, touching nothing else. -/
theorem cancel_access_spec (db : Db) (accessId userId : Nat) :
    ((cancel_access db accessId userId).2
        = Except.error (AppError.notFound "Гостевой доступ не найден")
      ↔ ∀ g ∈ db.guestAccess,
          ¬(g.id = accessId ∧ g.createdBy = userId ∧ g.status = GuestAccessStatus.pending))
    ∧ ((cancel_access db accessId userId).2
        = Except.error (AppError.notFound "Гостевой доступ не найден") →
        (cancel_access db accessId userId).1 = db)
    ∧ (cancel_access db accessId userId).1.guestAccess
        = db.guestAccess.map (fun g => if cancelGuard accessId userId g
            then { g with status := GuestAccessStatus.cancelled } else g)
    ∧ (cancel_access db accessId userId).1.barrierLogs = db.barrierLogs
    ∧ (cancel_access db accessId userId).1.users = db.users := by
  by_cases hz : db.guestAccess.countP (cancelGuard accessId userId) = 0
  · have hall := List.countP_eq_zero.mp hz
    have hmapid : db.guestAccess.map (fun g => if cancelGuard accessId userId g
        then { g with status := GuestAccessStatus.cancelled } else g) = db.guestAccess := by
      have hfix : ∀ g ∈ db.guestAccess, (if cancelGuard accessId userId g
          then { g with status := GuestAccessStatus.cancelled } else g) = id g := by
        intro g hg
        simp [hall g hg]
      rw [List.map_congr_left hfix, List.map_id]
    have he : cancel_access db accessId userId
        = (db, Except.error (AppError.notFound "Гостевой доступ не найден")) := by
      simp [cancel_access, hz, hmapid]
    rw [he]
    refine ⟨?_, fun _ => rfl, hmapid.symm, rfl, rfl⟩
    constructor
    · intro _ g hg hp
      exact absurd ((cancelGuard_iff accessId userId g).mpr hp) (hall g hg)
    · intro _
      rfl
  · have hex : ¬ ∀ g ∈ db.guestAccess,
        ¬(g.id = accessId ∧ g.createdBy = userId ∧ g.status = GuestAccessStatus.pending) := by
      intro hall
      apply hz
      apply List.countP_eq_zero.mpr
      intro g hg hguard
      exact hall g hg ((cancelGuard_iff accessId userId g).mp hguard)
    have hbeq : (db.guestAccess.countP (cancelGuard accessId userId) == 0) = false := by
      simpa using hz
    have he : cancel_access db accessId userId
        = ({ db with guestAccess := db.guestAccess.map (fun g =>
              if cancelGuard accessId userId g
              then { g with status := GuestAccessStatus.cancelled } else g) },
           Except.ok ()) := by
      simp [cancel_access, hbeq]
    rw [he]
    refine ⟨⟨fun hcontr => Except.noConfusion hcontr, fun hall => absurd hall hex⟩,
      fun hcontr => Except.noConfusion hcontr, rfl, rfl, rfl⟩

/-- C2 witness: the non-creator cancel attempt on `pendingDb` leaves the
store unchanged. -/
theorem cancel_access_spec_witness :
    (cancel_access pendingDb 1 8).1 = pendingDb :=
  (cancel_access_spec pendingDb 1 8).2.1 (by decide)

theorem expireGuard_iff (now : Int) (g : GuestAccess) :
    expireGuard now g = true
      ↔ g.status = GuestAccessStatus.pending ∧ g.expiresAt < now := by
  simp [expireGuard]

/-- C8 amended: the expiry sweep transitions every Pending record with
`expires_at` strictly before `now` to Expired (a record with `expires_at`
exactly equal to `now` is NOT included), changes nothing else — no other
record, no timestamps, no log rows, no users — and dispatches no
notification. -/
theorem expire_old_access_spec (db : Db) (now : Int) :
    (expire_old_access db now).1.guestAccess
        = db.guestAccess.map (fun g => if expireGuard now g
            then { g with status := GuestAccessStatus.expired } else g)
      ∧ (expire_old_access db now).1.barrierLogs = db.barrierLogs
      ∧ (expire_old_access db now).1.users = db.users
      ∧ (expire_old_access db now).2.2 = []
      ∧ (∀ g ∈ db.guestAccess, g.status = GuestAccessStatus.pending → g.expiresAt < now →
          { g with status := GuestAccessStatus.expired } ∈ (expire_old_access db now).1.guestAccess)
      ∧ (∀ g ∈ db.guestAccess,
          ¬(g.status = GuestAccessStatus.pending ∧ g.expiresAt < now) →
          g ∈ (expire_old_access db now).1.guestAccess) := by
  refine ⟨rfl, rfl, rfl, rfl, ?_, ?_⟩
  · intro g hg h1 h2
    have hx : (if expireGuard now g then { g with status := GuestAccessStatus.expired } else g)
        = { g with status := GuestAccessStatus.expired } := by
      simp [(expireGuard_iff now g).mpr ⟨h1, h2⟩]
    rw [← hx]
    exact List.mem_map_of_mem _ hg
  · intro g hg hng
    have hb : expireGuard now g = false := by
      rw [Bool.eq_false_iff]
      intro hc
      exact hng ((expireGuard_iff now g).mp hc)
    have hx : (if expireGuard now g then { g with status := GuestAccessStatus.expired } else g)
        = g := by
      simp [hb]
    rw [show (expire_old_access db now).1.guestAccess
        = db.guestAccess.map (fun g => if expireGuard now g
            then { g with status := GuestAccessStatus.expired } else g) from rfl]
    rw [← hx]
    exact List.mem_map_of_mem _ hg

/-- C8 witness: sweeping `pendingDb` at time 150 expires `pendingRec`
(whose window ended at 100). -/
theorem expire_old_access_spec_witness :
    { pendingRec with status := GuestAccessStatus.expired }
      ∈ (expire_old_access pendingDb 150).1.guestAccess :=
  (expire_old_access_spec pendingDb 150).2.2.2.2.1 pendingRec (by decide)
    (by decide) (by decide)

theorem exitLookupPred_iff (code : String) (g : GuestAccess) :
    (g.accessCode == code && g.status == GuestAccessStatus.active) = true
      ↔ g.accessCode = code ∧ g.status = GuestAccessStatus.active := by
  simp

theorem exitLookup_eq_none_iff (db : Db) (code : String) :
    exitLookup db code = none
      ↔ ∀ g ∈ db.guestAccess,
          ¬(g.accessCode = code ∧ g.status = GuestAccessStatus.active) := by
  unfold exitLookup
  rw [List.find?_eq_none]
  constructor
  · intro h g hg hp
    exact h g hg ((exitLookupPred_iff code g).mpr hp)
  · intro h g hg hp
    exact h g hg ((exitLookupPred_iff code g).mp hp)

theorem exitLookup_some_props {db : Db} {code : String} {g : GuestAccess}
    (h : exitLookup db code = some g) :
    g ∈ db.guestAccess ∧ g.accessCode = code ∧ g.status = GuestAccessStatus.active := by
  have h1 : db.guestAccess.find? (fun x =>
      x.accessCode == code && x.status == GuestAccessStatus.active) = some g := h
  have h2 := List.find?_some h1
  exact ⟨List.mem_of_find?_eq_some h1, (exitLookupPred_iff code g).mp h2⟩

/-- C7: `process_exit` fails with NotFound exactly when no record has the
presented code with status Active (in particular for a Pending record
never entered); on success it completes the record, stamps
`exited_at = now` (monotone relative to any past `entered_at`), appends
exactly one Exit audit-log row, and dispatches no notification. -/
theorem process_exit_spec (db : Db) (code : String) (barrierId : Option Nat) (now : Int)
    (hmono : ∀ g ∈ db.guestAccess, ∀ t, g.enteredAt = some t → t ≤ now) :
    ((process_exit db code barrierId now).2.1
        = Except.error (AppError.notFound "Активный гостевой доступ не найден")
      ↔ ∀ g ∈ db.guestAccess, ¬(g.accessCode = code ∧ g.status = GuestAccessStatus.active))
    ∧ (process_exit db code barrierId now).2.2 = []
    ∧ (∀ u, (process_exit db code barrierId now).2.1 = Except.ok u →
        u.status = GuestAccessStatus.completed ∧ u.exitedAt = some now
          ∧ (∀ t t2, u.enteredAt = some t → u.exitedAt = some t2 → t ≤ t2)
          ∧ ∃ g0 ∈ db.guestAccess, g0.accessCode = code
              ∧ g0.status = GuestAccessStatus.active
              ∧ (process_exit db code barrierId now).1.barrierLogs
                = db.barrierLogs ++ [exitLogRow g0 barrierId now]) := by
  cases hl : exitLookup db code with
  | none =>
    have hnone := (exitLookup_eq_none_iff db code).mp hl
    refine ⟨?_, ?_, ?_⟩
    · simp only [process_exit, hl]
      exact iff_of_true trivial hnone
    · simp [process_exit, hl]
    · intro u hu
      rw [show (process_exit db code barrierId now).2.1
          = Except.error (AppError.notFound "Активный гостевой доступ не найден") by
        simp [process_exit, hl]] at hu
      exact Except.noConfusion hu
  | some g =>
    obtain ⟨hmem, hcode, hstat⟩ := exitLookup_some_props hl
    obtain ⟨r, hr, hrmem, hrid⟩ := findById_of_mem hmem
    have hres : (process_exit db code barrierId now).2.1 = Except.ok (setExited now r) := by
      simp [process_exit, hl, hr]
    refine ⟨?_, ?_, ?_⟩
    · rw [hres]
      constructor
      · intro hfalse
        exact Except.noConfusion hfalse
      · intro hall
        exact absurd ⟨hcode, hstat⟩ (hall g hmem)
    · simp [process_exit, hl, hr]
    · intro u hu
      rw [hres] at hu
      have hur : u = setExited now r := (Except.ok.inj hu).symm
      refine ⟨by simp [hur, setExited], by simp [hur, setExited], ?_,
        g, hmem, hcode, hstat, ?_⟩
      · intro t t2 ht ht2
        have henter : r.enteredAt = some t := by
          rw [hur] at ht
          simpa [setExited] using ht
        have ht2n : now = t2 := by
          rw [hur] at ht2
          simpa [setExited] using ht2
        rw [← ht2n]
        exact hmono r hrmem t henter
      · simp [process_exit, hl, hr, updateById]

/-- C7 witness: exiting the Active record of `overstayDb` (code 222222)
at time 45 completes it with monotone timestamps and one Exit log row. -/
theorem process_exit_spec_witness :
    (setExited 45 overstayRec).status = GuestAccessStatus.completed
      ∧ (setExited 45 overstayRec).exitedAt = some 45
      ∧ (∀ t t2, (setExited 45 overstayRec).enteredAt = some t →
          (setExited 45 overstayRec).exitedAt = some t2 → t ≤ t2)
      ∧ ∃ g0 ∈ overstayDb.guestAccess, g0.accessCode = "222222"
          ∧ g0.status = GuestAccessStatus.active
          ∧ (process_exit overstayDb "222222" none 45).1.barrierLogs
            = overstayDb.barrierLogs ++ [exitLogRow g0 none 45] :=
  (process_exit_spec overstayDb "222222" none 45 (by decide)).2.2
    (setExited 45 overstayRec) (by decide)

/-- C5 amended: the create handler never rejects the requested duration:
a missing duration defaults to 30 and the value is clamped with
`.min(240)` rather than validated, so any request (also one above the
ceiling) succeeds; the persisted record is Pending with
`expires_at = created_at + duration_minutes`, no entry or exit stamps,
and no notification is dispatched. -/
theorem create_guest_access_handler_spec (db : Db) (userId complexId : Nat)
    (gn gp vn : Option String) (d : Option Int) (code : String) (newId : Nat)
    (qr : Option String) (now : Int) :
    ∃ g, (create_guest_access_handler db userId complexId gn gp vn d code newId qr now).2.1
          = Except.ok g
        ∧ g.status = GuestAccessStatus.pending
        ∧ g.durationMinutes = min (d.getD 30) 240
        ∧ g.durationMinutes ≤ 240
        ∧ g.createdAt = now
        ∧ g.expiresAt = g.createdAt + g.durationMinutes
        ∧ g.enteredAt = none
        ∧ g.exitedAt = none
        ∧ (create_guest_access_handler db userId complexId gn gp vn d code newId qr now).2.2 = []
        ∧ ∃ q, { g with qrCodeUrl := q }
            ∈ (create_guest_access_handler db userId complexId gn gp vn d code newId qr now).1.guestAccess := by
  refine ⟨(create_guest_access db complexId userId gn gp vn (min (d.getD 30) 240)
    code newId now).2, ?_, rfl, rfl, min_le_right _ _, rfl, rfl, rfl, rfl, ?_, ?_⟩
  · cases qr <;> simp [create_guest_access_handler]
  · cases qr <;> simp [create_guest_access_handler]
  · cases qr with
    | none =>
      refine ⟨none, ?_⟩
      simp [create_guest_access_handler, create_guest_access]
    | some q =>
      refine ⟨some q, ?_⟩
      simp [create_guest_access_handler, create_guest_access, updateById]

/-! Machinery for the overstay sweep fold. -/

theorem flagSet_eq_self {x : GuestAccess} (h : x.overstayNotified = true) :
    ({ x with overstayNotified := true } : GuestAccess) = x := by
  cases x
  simp_all

theorem overstayStep_users (smsOk : Nat → Bool) (acc : Db × List SmsAttempt)
    (g : GuestAccess) : (overstayStep smsOk acc g).1.users = acc.1.users := by
  unfold overstayStep
  cases h : getOwnerPhone acc.1.users g.createdBy <;> simp [updateById]

theorem overstayFold_users (smsOk : Nat → Bool) :
    ∀ (gs : List GuestAccess) (acc : Db × List SmsAttempt),
      (gs.foldl (overstayStep smsOk) acc).1.users = acc.1.users := by
  intro gs
  induction gs with
  | nil => intro acc; rfl
  | cons g t ih =>
    intro acc
    rw [List.foldl_cons, ih (overstayStep smsOk acc g), overstayStep_users]

theorem overstayFold_sms_mono (smsOk : Nat → Bool) :
    ∀ (gs : List GuestAccess) (acc : Db × List SmsAttempt) (a : SmsAttempt),
      a ∈ acc.2 → a ∈ (gs.foldl (overstayStep smsOk) acc).2 := by
  intro gs
  induction gs with
  | nil => intro acc a ha; exact ha
  | cons g t ih =>
    intro acc a ha
    rw [List.foldl_cons]
    apply ih
    unfold overstayStep
    cases h : getOwnerPhone acc.1.users g.createdBy with
    | some phone => exact List.mem_append_left _ ha
    | none => exact ha

theorem overstayFold_flagged_mem (smsOk : Nat → Bool) :
    ∀ (gs : List GuestAccess) (acc : Db × List SmsAttempt) (x : GuestAccess),
      x ∈ acc.1.guestAccess → x.overstayNotified = true →
      x ∈ (gs.foldl (overstayStep smsOk) acc).1.guestAccess := by
  intro gs
  induction gs with
  | nil => intro acc x hx _; exact hx
  | cons g t ih =>
    intro acc x hx hflag
    rw [List.foldl_cons]
    apply ih (overstayStep smsOk acc g) x ?_ hflag
    unfold overstayStep
    cases h : getOwnerPhone acc.1.users g.createdBy with
    | some phone =>
      have hfix : (fun y : GuestAccess =>
          if y.id == g.id then { y with overstayNotified := true } else y) x = x := by
        by_cases hid : x.id = g.id
        · have hc : (x.id == g.id) = true := by simp [hid]
          show (if x.id == g.id then { x with overstayNotified := true } else x) = x
          rw [if_pos hc]
          exact flagSet_eq_self hflag
        · have hc : ¬((x.id == g.id) = true) := by simp [hid]
          show (if x.id == g.id then { x with overstayNotified := true } else x) = x
          rw [if_neg hc]
      rw [show (updateById acc.1 g.id (fun y => { y with overstayNotified := true }),
          acc.2 ++ [{ phone := phone, kind := SmsKind.overstay, guestAccessId := g.id,
                      delivered := smsOk g.id }]).1.guestAccess
          = acc.1.guestAccess.map (fun y : GuestAccess =>
              if y.id == g.id then { y with overstayNotified := true } else y) from rfl]
      rw [← hfix]
      exact List.mem_map_of_mem _ hx
    | none => exact hx

theorem overstayFold_fire (smsOk : Nat → Bool) (us : List UserRow) (r : GuestAccess)
    (p : String) (hp : getOwnerPhone us r.createdBy = some p) :
    ∀ (gs : List GuestAccess) (acc : Db × List SmsAttempt),
      acc.1.users = us → r ∈ gs →
      (r ∈ acc.1.guestAccess
        ∨ ({ r with overstayNotified := true } : GuestAccess) ∈ acc.1.guestAccess) →
      (({ r with overstayNotified := true } : GuestAccess)
          ∈ (gs.foldl (overstayStep smsOk) acc).1.guestAccess
        ∧ ({ phone := p, kind := SmsKind.overstay, guestAccessId := r.id,
             delivered := smsOk r.id } : SmsAttempt)
            ∈ (gs.foldl (overstayStep smsOk) acc).2) := by
  intro gs
  induction gs with
  | nil => intro acc _ hr _; exact absurd hr (List.not_mem_nil r)
  | cons g t ih =>
    intro acc hus hr hpre
    rw [List.foldl_cons]
    rcases List.mem_cons.mp hr with rfl | hrt
    · have hpd : getOwnerPhone acc.1.users r.createdBy = some p := by
        rw [hus]
        exact hp
      have hstep : overstayStep smsOk acc r
          = (updateById acc.1 r.id (fun y => { y with overstayNotified := true }),
             acc.2 ++ [{ phone := p, kind := SmsKind.overstay, guestAccessId := r.id,
                         delivered := smsOk r.id }]) := by
        unfold overstayStep
        rw [hpd]
      rw [hstep]
      have hflagmem : ({ r with overstayNotified := true } : GuestAccess)
          ∈ (updateById acc.1 r.id (fun y => { y with overstayNotified := true })).guestAccess := by
        rw [show (updateById acc.1 r.id (fun y => { y with overstayNotified := true })).guestAccess
            = acc.1.guestAccess.map (fun y : GuestAccess =>
                if y.id == r.id then { y with overstayNotified := true } else y) from rfl]
        rcases hpre with hpre | hpre
        · have hval : (fun y : GuestAccess =>
              if y.id == r.id then { y with overstayNotified := true } else y) r
              = { r with overstayNotified := true } := by simp
          rw [← hval]
          exact List.mem_map_of_mem _ hpre
        · have hval : (fun y : GuestAccess =>
              if y.id == r.id then { y with overstayNotified := true } else y)
                ({ r with overstayNotified := true } : GuestAccess)
              = { r with overstayNotified := true } := by simp
          rw [← hval]
          exact List.mem_map_of_mem _ hpre
      constructor
      · exact overstayFold_flagged_mem smsOk t _ _ hflagmem rfl
      · apply overstayFold_sms_mono
        exact List.mem_append_right _ (List.mem_singleton.mpr rfl)
    · have hus2 : (overstayStep smsOk acc g).1.users = us := by
        rw [overstayStep_users]
        exact hus
      have hpre2 : r ∈ (overstayStep smsOk acc g).1.guestAccess
          ∨ ({ r with overstayNotified := true } : GuestAccess)
              ∈ (overstayStep smsOk acc g).1.guestAccess := by
        unfold overstayStep
        cases h : getOwnerPhone acc.1.users g.createdBy with
        | some phone =>
          rcases hpre with hpre | hpre
          · by_cases hid : r.id = g.id
            · refine Or.inr ?_
              have hval : (fun y : GuestAccess =>
                  if y.id == g.id then { y with overstayNotified := true } else y) r
                  = { r with overstayNotified := true } := by simp [hid]
              rw [show (updateById acc.1 g.id (fun y => { y with overstayNotified := true }),
                  acc.2 ++ [{ phone := phone, kind := SmsKind.overstay, guestAccessId := g.id,
                              delivered := smsOk g.id }]).1.guestAccess
                  = acc.1.guestAccess.map (fun y : GuestAccess =>
                      if y.id == g.id then { y with overstayNotified := true } else y) from rfl]
              rw [← hval]
              exact List.mem_map_of_mem _ hpre
            · refine Or.inl ?_
              have hval : (fun y : GuestAccess =>
                  if y.id == g.id then { y with overstayNotified := true } else y) r = r := by
                simp [hid]
              rw [show (updateById acc.1 g.id (fun y => { y with overstayNotified := true }),
                  acc.2 ++ [{ phone := phone, kind := SmsKind.overstay, guestAccessId := g.id,
                              delivered := smsOk g.id }]).1.guestAccess
                  = acc.1.guestAccess.map (fun y : GuestAccess =>
                      if y.id == g.id then { y with overstayNotified := true } else y) from rfl]
              rw [← hval]
              exact List.mem_map_of_mem _ hpre
          · refine Or.inr ?_
            have hval : (fun y : GuestAccess =>
                if y.id == g.id then { y with overstayNotified := true } else y)
                  ({ r with overstayNotified := true } : GuestAccess)
                = { r with overstayNotified := true } := by
              by_cases hid : r.id = g.id <;> simp [hid]
            rw [show (updateById acc.1 g.id (fun y => { y with overstayNotified := true }),
                acc.2 ++ [{ phone := phone, kind := SmsKind.overstay, guestAccessId := g.id,
                            delivered := smsOk g.id }]).1.guestAccess
                = acc.1.guestAccess.map (fun y : GuestAccess =>
                    if y.id == g.id then { y with overstayNotified := true } else y) from rfl]
            rw [← hval]
            exact List.mem_map_of_mem _ hpre
        | none => exact hpre
      exact ih (overstayStep smsOk acc g) hus2 hrt hpre2

theorem filter_map_eq_of_fix {α : Type} (l : List α) (m : α → α) (p : α → Bool)
    (hpm : ∀ x, p (m x) = p x) (hfix : ∀ x, p x = true → m x = x) :
    (l.map m).filter p = l.filter p := by
  induction l with
  | nil => rfl
  | cons a t ih =>
    rw [List.map_cons, List.filter_cons, List.filter_cons, hpm a]
    cases hpa : p a with
    | true => rw [if_pos rfl, if_pos rfl, hfix a hpa, ih]
    | false => rw [if_neg (by simp), if_neg (by simp), ih]

theorem overstayFold_avoid (smsOk : Nat → Bool) (us : List UserRow) (i : Nat) :
    ∀ (gs : List GuestAccess) (acc : Db × List SmsAttempt),
      acc.1.users = us →
      (∀ g ∈ gs, getOwnerPhone us g.createdBy = none ∨ g.id ≠ i) →
      ((gs.foldl (overstayStep smsOk) acc).1.guestAccess.filter (fun x => x.id == i)
          = acc.1.guestAccess.filter (fun x => x.id == i)
        ∧ ∀ a ∈ (gs.foldl (overstayStep smsOk) acc).2, a ∈ acc.2 ∨ a.guestAccessId ≠ i) := by
  intro gs
  induction gs with
  | nil =>
    intro acc _ _
    exact ⟨rfl, fun a ha => Or.inl ha⟩
  | cons g t ih =>
    intro acc hus hgs
    rw [List.foldl_cons]
    have hus2 : (overstayStep smsOk acc g).1.users = us := by
      rw [overstayStep_users]
      exact hus
    have ihr := ih (overstayStep smsOk acc g) hus2 (fun x hx => hgs x (List.mem_cons_of_mem g hx))
    rcases hgs g (List.mem_cons_self g t) with hnone | hne
    · have hstep : overstayStep smsOk acc g = acc := by
        unfold overstayStep
        rw [show getOwnerPhone acc.1.users g.createdBy = none by rw [hus]; exact hnone]
      rw [hstep] at ihr ⊢
      exact ihr
    · cases hq : getOwnerPhone acc.1.users g.createdBy with
      | none =>
        have hstep : overstayStep smsOk acc g = acc := by
          unfold overstayStep
          rw [hq]
        rw [hstep] at ihr ⊢
        exact ihr
      | some q =>
        have hstep : overstayStep smsOk acc g
            = (updateById acc.1 g.id (fun y => { y with overstayNotified := true }),
               acc.2 ++ [{ phone := q, kind := SmsKind.overstay, guestAccessId := g.id,
                           delivered := smsOk g.id }]) := by
          unfold overstayStep
          rw [hq]
        rw [hstep] at ihr ⊢
        obtain ⟨hfil, hatt⟩ := ihr
        constructor
        · rw [hfil]
          rw [show (updateById acc.1 g.id (fun y => { y with overstayNotified := true }),
              acc.2 ++ [{ phone := q, kind := SmsKind.overstay, guestAccessId := g.id,
                          delivered := smsOk g.id }]).1.guestAccess
              = acc.1.guestAccess.map (fun y : GuestAccess =>
                  if y.id == g.id then { y with overstayNotified := true } else y) from rfl]
          apply filter_map_eq_of_fix
          · intro x
            by_cases hid : x.id = g.id <;> simp [hid]
          · intro x hpx
            have hxi : x.id = i := by simpa using hpx
            have hne2 : ¬(x.id = g.id) := by
              intro hcontr
              exact hne (hcontr.symm.trans hxi)
            simp [hne2]
        · intro a ha
          rcases hatt a ha with hin | hni
          · rcases List.mem_append.mp hin with hin2 | hin2
            · exact Or.inl hin2
            · rw [List.mem_singleton] at hin2
              refine Or.inr ?_
              rw [hin2]
              exact hne
          · exact Or.inr hni

theorem overstayFold_shape (smsOk : Nat → Bool) :
    ∀ (gs : List GuestAccess) (acc : Db × List SmsAttempt),
      ∀ x ∈ (gs.foldl (overstayStep smsOk) acc).1.guestAccess,
        ∃ y ∈ acc.1.guestAccess, x = y ∨ x = { y with overstayNotified := true } := by
  intro gs
  induction gs with
  | nil => intro acc x hx; exact ⟨x, hx, Or.inl rfl⟩
  | cons g t ih =>
    intro acc x hx
    rw [List.foldl_cons] at hx
    obtain ⟨z, hz, hxz⟩ := ih (overstayStep smsOk acc g) x hx
    have hz2 : ∃ y ∈ acc.1.guestAccess, z = y ∨ z = { y with overstayNotified := true } := by
      unfold overstayStep at hz
      cases hq : getOwnerPhone acc.1.users g.createdBy with
      | none =>
        rw [hq] at hz
        exact ⟨z, hz, Or.inl rfl⟩
      | some q =>
        rw [hq] at hz
        rw [show (updateById acc.1 g.id (fun y => { y with overstayNotified := true }),
            acc.2 ++ [{ phone := q, kind := SmsKind.overstay, guestAccessId := g.id,
                        delivered := smsOk g.id }]).1.guestAccess
            = acc.1.guestAccess.map (fun y : GuestAccess =>
                if y.id == g.id then { y with overstayNotified := true } else y) from rfl] at hz
        obtain ⟨y, hy, hzy⟩ := List.mem_map.mp hz
        refine ⟨y, hy, ?_⟩
        by_cases hid : y.id = g.id
        · have hc : (y.id == g.id) = true := by simp [hid]
          rw [← hzy, if_pos hc]
          exact Or.inr rfl
        · have hc : ¬((y.id == g.id) = true) := by simp [hid]
          rw [← hzy, if_neg hc]
          exact Or.inl rfl
    obtain ⟨y, hy, hzy⟩ := hz2
    refine ⟨y, hy, ?_⟩
    rcases hxz with rfl | rfl
    · exact hzy
    · rcases hzy with rfl | rfl
      · exact Or.inr rfl
      · exact Or.inr rfl

theorem overstayGuard_mono {now fut : Int} {r : GuestAccess}
    (h : overstayGuard now r = true) (hle : now ≤ fut) :
    overstayGuard fut r = true := by
  unfold overstayGuard at h ⊢
  cases he : r.enteredAt with
  | none =>
    rw [he] at h
    simp at h
  | some t =>
    rw [he] at h
    simp only [Bool.and_eq_true, decide_eq_true_eq] at h ⊢
    exact ⟨h.1, lt_of_lt_of_le h.2 hle⟩

theorem overstayGuard_flagged_false (fut : Int) (r : GuestAccess) :
    overstayGuard fut ({ r with overstayNotified := true } : GuestAccess) = false := by
  simp [overstayGuard]

/-- C3 amended: for every record selected by the overstay sweep whose
creator's phone resolves, the sweep dispatches exactly one overstay
notification and then sets `overstay_notified = true` unconditionally —
also when the dispatch failed, so a failed dispatch is never retried;
the sweep mutates nothing but that flag (in particular no status), and
the flagged record is never selected again. -/
theorem check_overstays_flag_regardless (db : Db) (now : Int) (smsOk : Nat → Bool)
    (r : GuestAccess) (p : String)
    (hmem : r ∈ db.guestAccess)
    (hguard : overstayGuard now r = true)
    (hphone : getOwnerPhone db.users r.createdBy = some p) :
    (({ r with overstayNotified := true } : GuestAccess)
        ∈ (check_overstays db now smsOk).1.guestAccess
      ∧ ({ phone := p, kind := SmsKind.overstay, guestAccessId := r.id,
           delivered := smsOk r.id } : SmsAttempt) ∈ (check_overstays db now smsOk).2)
    ∧ (∀ x ∈ (check_overstays db now smsOk).1.guestAccess,
        ∃ y ∈ db.guestAccess, x = y ∨ x = { y with overstayNotified := true })
    ∧ (∀ fut, overstayGuard fut ({ r with overstayNotified := true } : GuestAccess)
        = false) := by
  refine ⟨?_, ?_, fun fut => overstayGuard_flagged_false fut r⟩
  · exact overstayFold_fire smsOk db.users r p hphone
      (db.guestAccess.filter (overstayGuard now)) (db, []) rfl
      (List.mem_filter.mpr ⟨hmem, hguard⟩) (Or.inl hmem)
  · intro x hx
    exact overstayFold_shape smsOk (db.guestAccess.filter (overstayGuard now)) (db, []) x hx

/-- C3 witness: sweeping `overstayDb` at time 100 with an always-failing
gateway still records the failed attempt and flags the record. -/
theorem check_overstays_flag_regardless_witness :
    ({ overstayRec with overstayNotified := true } : GuestAccess)
        ∈ (check_overstays overstayDb 100 (fun _ => false)).1.guestAccess
      ∧ ({ phone := "+77001234567", kind := SmsKind.overstay, guestAccessId := 2,
           delivered := false } : SmsAttempt)
        ∈ (check_overstays overstayDb 100 (fun _ => false)).2 :=
  (check_overstays_flag_regardless overstayDb 100 (fun _ => false) overstayRec
    "+77001234567" (by decide) (by decide) (by decide)).1

/-- C10: an overstaying Active record whose creator has no resolvable
phone is left entirely unchanged by the overstay sweep — no dispatch is
attempted for it and its flag stays false — and it still satisfies the
selection guard at every later sweep time, so it is re-selected
indefinitely. -/
theorem check_overstays_unresolved_phone (db : Db) (now : Int) (smsOk : Nat → Bool)
    (r : GuestAccess)
    (hmem : r ∈ db.guestAccess)
    (hguard : overstayGuard now r = true)
    (hphone : getOwnerPhone db.users r.createdBy = none)
    (huniq : ∀ g ∈ db.guestAccess, g.id = r.id → g = r) :
    (check_overstays db now smsOk).1.guestAccess.filter (fun x => x.id == r.id)
        = db.guestAccess.filter (fun x => x.id == r.id)
      ∧ r ∈ (check_overstays db now smsOk).1.guestAccess
      ∧ (∀ a ∈ (check_overstays db now smsOk).2, a.guestAccessId ≠ r.id)
      ∧ (∀ fut, now ≤ fut →
          r ∈ (check_overstays db now smsOk).1.guestAccess.filter (overstayGuard fut)) := by
  have hhead : ∀ g ∈ db.guestAccess.filter (overstayGuard now),
      getOwnerPhone db.users g.createdBy = none ∨ g.id ≠ r.id := by
    intro g hg
    by_cases hid : g.id = r.id
    · have hgr : g = r := huniq g (List.mem_of_mem_filter hg) hid
      rw [hgr]
      exact Or.inl hphone
    · exact Or.inr hid
  obtain ⟨hfil, hatt⟩ := overstayFold_avoid smsOk db.users r.id
    (db.guestAccess.filter (overstayGuard now)) (db, []) rfl hhead
  have heq : (check_overstays db now smsOk).1.guestAccess.filter (fun x => x.id == r.id)
      = db.guestAccess.filter (fun x => x.id == r.id) := hfil
  have hrmem : r ∈ (check_overstays db now smsOk).1.guestAccess := by
    have h1 : r ∈ db.guestAccess.filter (fun x => x.id == r.id) :=
      List.mem_filter.mpr ⟨hmem, by simp⟩
    have h2 : r ∈ (check_overstays db now smsOk).1.guestAccess.filter
        (fun x => x.id == r.id) := by
      rw [heq]
      exact h1
    exact List.mem_of_mem_filter h2
  refine ⟨heq, hrmem, ?_, ?_⟩
  · intro a ha
    rcases hatt a ha with hin | hni
    · exact absurd hin (List.not_mem_nil a)
    · exact hni
  · intro fut hle
    exact List.mem_filter.mpr ⟨hrmem, overstayGuard_mono hguard hle⟩

/-- C10 witness: `orphanRec` (creator 99 has no users row) survives the
sweep at time 100 untouched and is still selected by the guard at 200. -/
theorem check_overstays_unresolved_phone_witness :
    orphanRec ∈ (check_overstays orphanDb 100 (fun _ => true)).1.guestAccess
      ∧ orphanRec ∈ (check_overstays orphanDb 100 (fun _ => true)).1.guestAccess.filter
          (overstayGuard 200) :=
  ⟨(check_overstays_unresolved_phone orphanDb 100 (fun _ => true) orphanRec
      (by decide) (by decide) (by decide) (by decide)).2.1,
   (check_overstays_unresolved_phone orphanDb 100 (fun _ => true) orphanRec
      (by decide) (by decide) (by decide) (by decide)).2.2.2 200 (by decide)⟩

end LocalHood
